import Mathlib

/-!
Verification of the pixooCommander widget/scene rendering and
device-communication core.  The JavaScript classes are shallowly embedded:
mutable objects become Lean structures, methods become pure functions from
the old state (plus any inputs) to the new state, thrown exceptions become
`Except` results, and JavaScript numbers on the code paths modelled here are
integers (`Int`/`Nat`).
-/

/-! ## Device endpoints (pixoo-client.js lines 23-29, device-scanner.js lines 56-61) -/

/-- An endpoint candidate: a port and a path, as in
`{ port: 80, path: '/post' }`. -/
abbrev Endpoint := Nat × String

/-- The ordered candidate endpoint list of `PixooClient` (`this.endpoints`,
pixoo-client.js lines 23-29). -/
def clientEndpoints : List Endpoint :=
  [(80, "/post"), (64, "/post"), (80, "/api/post"), (8080, "/post"), (443, "/post")]

/-- The ordered endpoint list probed by `DeviceScanner.testDevice`
(device-scanner.js lines 56-61). -/
def scannerEndpoints : List Endpoint :=
  [(80, "/post"), (64, "/post"), (80, "/api/post"), (8080, "/post")]

/-! ## Base widget render cadence (part_003 lines 48-56, `Widget.render`) -/

/-- The part of a base widget's state that `Widget.render` reads and writes:
the `initialized` and `enabled` flags, the `lastUpdate` timestamp, the
`updateInterval`, and a count of how many times the subtype draw hook
`onRender` has been invoked. -/
structure WidgetTick where
  inited : Bool
  enabled : Bool
  lastUpdate : Int
  updateInterval : Int
  draws : Nat
deriving DecidableEq, Repr

/-- `Widget.render` (part_003 lines 48-56): if the widget is initialized and
enabled and `now - lastUpdate >= updateInterval`, invoke `onRender` (counted
by `draws`) and set `lastUpdate = now`; otherwise change nothing. -/
def WidgetTick.render (w : WidgetTick) (now : Int) : WidgetTick :=
  if w.inited && w.enabled then
    if now - w.lastUpdate ≥ w.updateInterval then
      { w with draws := w.draws + 1, lastUpdate := now }
    else w
  else w

/-- A freshly constructed base widget's cadence state with
`updateInterval = i`: the constructor sets `lastUpdate = 0` (part_003
line 17); we take it already initialized and enabled. -/
def freshWidgetTick (i : Int) : WidgetTick :=
  { inited := true, enabled := true, lastUpdate := 0, updateInterval := i, draws := 0 }

/-! ## Pixel buffer and widget drawing primitives
(pixoo-client.js lines 122-126, part_003 lines 104-228, part_004 ClockWidget) -/

/-- An RGB colour triple, as the JavaScript arrays `[r, g, b]`. -/
structure Color where
  r : Nat
  g : Nat
  b : Nat
deriving DecidableEq, Repr

/-- The colour `[0, 0, 0]`. -/
def black : Color := ⟨0, 0, 0⟩

/-- The colour `[255, 255, 255]`, the clock's default text colour. -/
def white : Color := ⟨255, 255, 255⟩

/-- The shared pixel buffer, as a total map from coordinates to colours
(`PixooClient.buffer`; out-of-range cells are simply never written). -/
abbrev Buf := Int → Int → Color

/-- The all-black buffer: `createBuffer` / the state after `clear()`
(pixoo-client.js lines 32-34 and 168-170). -/
def clearBuf : Buf := fun _ _ => black

/-- Overwrite one cell of the buffer (`this.buffer[y][x] = color`). -/
def bufWrite (buf : Buf) (x y : Int) (c : Color) : Buf :=
  fun p q => if p = x ∧ q = y then c else buf p q

/-- `PixooClient.setPixel` (pixoo-client.js lines 122-126): writes the cell
only when `0 ≤ x < size` and `0 ≤ y < size`, otherwise does nothing. -/
def clientSetPixel (size : Int) (buf : Buf) (x y : Int) (c : Color) : Buf :=
  if 0 ≤ x ∧ x < size ∧ 0 ≤ y ∧ y < size then bufWrite buf x y c else buf

/-- The geometry of a widget: its `(x, y)` offset and its
`width × height` rectangle (part_003 lines 13-16). -/
structure Widget where
  x : Int
  y : Int
  width : Int
  height : Int
deriving DecidableEq, Repr

/-- `Widget.setPixel` (part_003 lines 104-111): translates by the widget's
`(x, y)` offset and writes through `pixooClient.setPixel` when the screen
coordinate lies in `[0, 64)²`.  Note that it checks the 64×64 screen, never
the widget's own `width`/`height`. -/
def Widget.setPixel (w : Widget) (buf : Buf) (x y : Int) (c : Color) : Buf :=
  let screenX := w.x + x
  let screenY := w.y + y
  if 0 ≤ screenX ∧ screenX < 64 ∧ 0 ≤ screenY ∧ screenY < 64 then
    clientSetPixel 64 buf screenX screenY c
  else buf

/-- `Widget.drawRect` (part_003 lines 113-131): filled loops over
`dy < height`, `dx < width`; the outline draws top/bottom rows then
left/right columns. -/
def Widget.drawRect (w : Widget) (buf : Buf) (x y width height : Int)
    (c : Color) (filled : Bool) : Buf :=
  if filled then
    (List.range height.toNat).foldl (fun b dy =>
      (List.range width.toNat).foldl (fun b dx =>
        w.setPixel b (x + dx) (y + dy) c) b) buf
  else
    let b1 := (List.range width.toNat).foldl (fun b dx =>
      w.setPixel (w.setPixel b (x + dx) y c) (x + dx) (y + height - 1) c) buf
    (List.range height.toNat).foldl (fun b dy =>
      w.setPixel (w.setPixel b x (y + dy) c) (x + width - 1) (y + dy) c) b1

/-- The 5×7 bitmap font table of `Widget.drawText` (part_003 lines
163-198), one five-column glyph per supported character. -/
def pixooFont : Char → Option (List Nat)
  | '0' => some [0x3E, 0x51, 0x49, 0x45, 0x3E]
  | '1' => some [0x00, 0x42, 0x7F, 0x40, 0x00]
  | '2' => some [0x42, 0x61, 0x51, 0x49, 0x46]
  | '3' => some [0x21, 0x41, 0x45, 0x4B, 0x31]
  | '4' => some [0x18, 0x14, 0x12, 0x7F, 0x10]
  | '5' => some [0x27, 0x45, 0x45, 0x45, 0x39]
  | '6' => some [0x3C, 0x4A, 0x49, 0x49, 0x30]
  | '7' => some [0x01, 0x71, 0x09, 0x05, 0x03]
  | '8' => some [0x36, 0x49, 0x49, 0x49, 0x36]
  | '9' => some [0x06, 0x49, 0x49, 0x29, 0x1E]
  | ':' => some [0x00, 0x36, 0x36, 0x00, 0x00]
  | ' ' => some [0x00, 0x00, 0x00, 0x00, 0x00]
  | 'A' => some [0x7E, 0x09, 0x09, 0x09, 0x7E]
  | 'B' => some [0x7F, 0x49, 0x49, 0x49, 0x36]
  | 'C' => some [0x3E, 0x41, 0x41, 0x41, 0x22]
  | 'D' => some [0x7F, 0x41, 0x41, 0x22, 0x1C]
  | 'E' => some [0x7F, 0x49, 0x49, 0x49, 0x41]
  | 'F' => some [0x7F, 0x09, 0x09, 0x09, 0x01]
  | 'G' => some [0x3E, 0x41, 0x49, 0x49, 0x7A]
  | 'H' => some [0x7F, 0x08, 0x08, 0x08, 0x7F]
  | 'I' => some [0x00, 0x41, 0x7F, 0x41, 0x00]
  | 'L' => some [0x7F, 0x40, 0x40, 0x40, 0x40]
  | 'M' => some [0x7F, 0x02, 0x0C, 0x02, 0x7F]
  | 'P' => some [0x7F, 0x09, 0x09, 0x09, 0x06]
  | 'a' => some [0x20, 0x54, 0x54, 0x54, 0x78]
  | 'e' => some [0x38, 0x54, 0x54, 0x54, 0x18]
  | 'l' => some [0x00, 0x41, 0x7F, 0x40, 0x00]
  | 'o' => some [0x38, 0x44, 0x44, 0x44, 0x38]
  | 'r' => some [0x7C, 0x08, 0x04, 0x04, 0x08]
  | 'W' => some [0x7F, 0x20, 0x18, 0x20, 0x7F]
  | 'd' => some [0x38, 0x44, 0x44, 0x48, 0x7F]
  | '!' => some [0x00, 0x00, 0x5F, 0x00, 0x00]
  | '.' => some [0x00, 0x60, 0x60, 0x00, 0x00]
  | '%' => some [0x23, 0x13, 0x08, 0x64, 0x62]
  | _ => none

/-- `font[char] || font[char.toUpperCase()] || font[' ']`
(part_003 line 203). -/
def glyphFor (ch : Char) : List Nat :=
  match pixooFont ch with
  | some g => g
  | none =>
    match pixooFont ch.toUpper with
    | some g => g
    | none => [0x00, 0x00, 0x00, 0x00, 0x00]

/-- One glyph of `Widget.drawText` (part_003 lines 205-212): for each of the
5 columns and 7 rows, set the pixel when bit `6 - row` of the column datum
is set. -/
def Widget.drawGlyph (w : Widget) (buf : Buf) (g : List Nat) (cx y : Int)
    (c : Color) : Buf :=
  (List.range 5).foldl (fun b col =>
    (List.range 7).foldl (fun b row =>
      if (g.getD col 0) &&& (1 <<< (6 - row)) ≠ 0 then
        w.setPixel b (cx + col) (y + row) c
      else b) b) buf

/-- `Widget.drawText` (part_003 lines 160-215): draws each character's glyph
and advances `currentX` by 6 (5 pixels plus 1 space). -/
def Widget.drawText (w : Widget) (buf : Buf) (text : List Char) (x y : Int)
    (c : Color) : Buf :=
  match text with
  | [] => buf
  | ch :: rest =>
    Widget.drawText w (w.drawGlyph buf (glyphFor ch) x y c) rest (x + 6) y c

/-- `ClockWidget.onRender` (part_004): fill the background rectangle only
when some component of `backgroundColor` is nonzero (JavaScript truthiness),
then draw the time string at widget-relative `(2, 2)`. -/
def clockOnRender (w : Widget) (timeStr : List Char) (color bg : Color)
    (buf : Buf) : Buf :=
  let b1 :=
    if bg.r ≠ 0 ∨ bg.g ≠ 0 ∨ bg.b ≠ 0 then
      w.drawRect buf 0 0 w.width w.height bg true
    else buf
  w.drawText b1 timeStr 2 2 color

/-- A Clock widget at `(2, 2)` with the default 64×64 geometry
(part_003 `getDefaultConfig`). -/
def clockAt22 : Widget := ⟨2, 2, 64, 64⟩

/-- One render tick of a scene containing only the clock widget at `(2,2)`
with default config: `Scene.render` clears the buffer, then
`Widget.render`'s cadence gate decides whether `ClockWidget.onRender`
fires (scene-manager.js lines 183-211, part_003 lines 48-56). -/
def clockSceneTick (now last interval : Int) (timeStr : List Char) : Buf :=
  if now - last ≥ interval then
    clockOnRender clockAt22 timeStr white black clearBuf
  else clearBuf

/-- The widget used to exhibit a draw outside the widget's own rectangle:
offset `(0, 0)` with a 1×1 rectangle. -/
def cexWidget : Widget := ⟨0, 0, 1, 1⟩

/-! ## Device client connection state (pixoo-client.js lines 39-120, 205-260) -/

/-- Errors thrown by `PixooClient.connect`: the `IP address not set` check
and the final `Failed to connect to Pixoo device on any port. Last error:
...` error carrying the last transport error message. -/
inductive ConnectError where
  | noAddress
  | allEndpointsFailed (last : Option String)
deriving DecidableEq, Repr

/-- Errors thrown by `PixooClient.sendCommand` before any transmission:
`Not connected to Pixoo device` and `No valid endpoint available`. -/
inductive SendError where
  | notConnected
  | noEndpoint
deriving DecidableEq, Repr

/-- The `PixooClient` state: target address, `connected` flag, the
negotiated `connectionState.port`/`path` pair (or none), the shared pixel
buffer, and — for observing transmissions — the list of commands handed to
the transport. -/
structure Client where
  ipAddress : Option String
  connected : Bool
  port : Option Nat
  path : Option String
  buffer : Buf
  sent : List String

/-- The all-endpoints loop of `PixooClient.connect` (lines 63-88): try each
candidate in order with `_testEndpoint` (outcome given by the transport
oracle `test`); on the first success store that endpoint and set
`connected`; when every candidate fails, clear the endpoint, set
`connected = false` and throw, carrying the last transport error. -/
def tryEndpoints (test : Endpoint → Except String Unit) (cl : Client) :
    List Endpoint → Option String → Client × Except ConnectError Unit
  | [], lastErr =>
    ({ cl with connected := false, port := none, path := none },
      Except.error (ConnectError.allEndpointsFailed lastErr))
  | e :: rest, _lastErr =>
    match test e with
    | Except.ok _ =>
      ({ cl with connected := true, port := some e.1, path := some e.2 }, Except.ok ())
    | Except.error msg => tryEndpoints test cl rest (some msg)

/-- The preferred-endpoint attempt of `PixooClient.connect` (lines 48-61):
when a previously negotiated `(port, path)` pair is stored, test it first;
on success keep it and set `connected`; on failure fall through to the full
candidate list. -/
def connectPreferred (cl : Client) (test : Endpoint → Except String Unit)
    (p : Nat) (pa : String) : Client × Except ConnectError Unit :=
  match test (p, pa) with
  | Except.ok _ => ({ cl with connected := true }, Except.ok ())
  | Except.error _ => tryEndpoints test cl clientEndpoints none

/-- `PixooClient.connect` after the address check (lines 44-89): use the
preferred endpoint when both `connectionState.port` and
`connectionState.path` are set, else the full candidate list. -/
def connectWithAddr (cl : Client) (test : Endpoint → Except String Unit) :
    Client × Except ConnectError Unit :=
  match cl.port, cl.path with
  | some p, some pa => connectPreferred cl test p pa
  | _, _ => tryEndpoints test cl clientEndpoints none

/-- `PixooClient.connect` (pixoo-client.js lines 39-89): fail when no
address is set; otherwise negotiate an endpoint. -/
def Client.connect (cl : Client) (test : Endpoint → Except String Unit) :
    Client × Except ConnectError Unit :=
  match cl.ipAddress with
  | none => (cl, Except.error ConnectError.noAddress)
  | some _ => connectWithAddr cl test

/-- The endpoint a `sendCommand` call transmits on (pixoo-client.js lines
205-216): throw `notConnected` when `connected` is false, throw
`noEndpoint` when no `(port, path)` pair is negotiated, and otherwise use
exactly the stored `connectionState` endpoint for every attempt. -/
def Client.sendTarget (cl : Client) : Except SendError Endpoint :=
  if cl.connected = false then Except.error SendError.notConnected
  else
    match cl.port, cl.path with
    | some p, some pa => Except.ok (p, pa)
    | _, _ => Except.error SendError.noEndpoint

/-! ## Scene rendering (scene-manager.js lines 183-231) -/

/-- A widget as the scene loop observes it: its `enabled` flag and its
`render` behaviour for one tick — a buffer transformation that may throw.
All in-repo widget hooks draw exclusively through the buffer primitives
above, so a tick's effect is a function of the buffer. -/
structure SceneWidget where
  enabled : Bool
  run : Buf → Except String Buf

/-- The widget loop shared by `Scene.render` and `Scene.renderPreview`
(scene-manager.js lines 190-195 and 219-224): render each enabled widget in
insertion order; a thrown error stops the loop (it is caught only by the
enclosing scene-level try).  Returns the resulting buffer, the ids of the
widgets whose render completed, and the uncaught widget error, if any. -/
def runWidgets : List (Nat × SceneWidget) → Buf → Buf × List Nat × Option String
  | [], b => (b, [], none)
  | (i, w) :: ws, b =>
    if w.enabled then
      match w.run b with
      | Except.error e => (b, [], some e)
      | Except.ok b' =>
        let r := runWidgets ws b'
        (r.1, i :: r.2.1, r.2.2)
    else runWidgets ws b

/-- `Scene.render` (scene-manager.js lines 183-211): skip when inactive;
clear the shared buffer and run the widget loop inside one try; only when
the loop completed without a widget error and the client is connected push
the frame (`Draw/SendHttpGif`).  Every error is caught and logged, so the
function always returns.  Result: the new client state, the ids of the
widgets that rendered, and whether a push was attempted. -/
def sceneRender (isActive : Bool) (cl : Client) (ws : List (Nat × SceneWidget)) :
    Client × List Nat × Bool :=
  if isActive = false then (cl, [], false)
  else
    match runWidgets ws clearBuf with
    | (b', ran, none) =>
      if cl.connected then
        ({ cl with buffer := b', sent := cl.sent ++ ["Draw/SendHttpGif"] }, ran, true)
      else ({ cl with buffer := b' }, ran, false)
    | (b', ran, some _) => ({ cl with buffer := b' }, ran, false)

/-- `Scene.renderPreview` (scene-manager.js lines 213-231): clear the buffer
and run the same widget loop, regardless of the scene's active state, with
errors caught, and never push to the device. -/
def renderPreview (cl : Client) (ws : List (Nat × SceneWidget)) : Client :=
  match runWidgets ws clearBuf with
  | (b', _, none) => { cl with buffer := b' }
  | (b', _, some _) => { cl with buffer := b' }

/-- A widget whose tick hook always throws. -/
def cexThrower : SceneWidget := ⟨true, fun _ => Except.error "boom"⟩

/-- A well-behaved enabled widget that writes one pixel. -/
def cexDrawer : SceneWidget := ⟨true, fun b => Except.ok (bufWrite b 0 0 white)⟩

/-- A connected client with a negotiated endpoint, for the scene-render
scenarios. -/
def cexClient : Client :=
  { ipAddress := some "1.2.3.4", connected := true, port := some 80,
    path := some "/post", buffer := clearBuf, sent := [] }

/-- A never-connected client with an address set, for the connect
scenarios. -/
def freshClient : Client :=
  { ipAddress := some "192.168.1.5", connected := false, port := none,
    path := none, buffer := clearBuf, sent := [] }

/-! ## Scene manager switching (scene-manager.js lines 1-181) -/

/-- The scene state the manager's switching logic observes: the `isActive`
flag set by `Scene.start` and cleared by `Scene.stop`. -/
structure SceneSt where
  isActive : Bool
deriving DecidableEq, Repr

/-- The `SceneManager` state: the insertion-ordered scene map
(`this.scenes`), the active scene id, and the id counter
(scene-manager.js lines 2-8). -/
structure SMState where
  scenes : List (Nat × SceneSt)
  activeSceneId : Option Nat
  sceneCounter : Nat
deriving DecidableEq, Repr

/-- Set the `isActive` flag of the scene with the given id, when present:
the state effect of `Scene.start` (lines 138-158) and `Scene.stop` (lines
160-181).  Both are no-ops on a scene already in the target state, and
stopping a scene already removed from the map changes nothing. -/
def setSceneActive (l : List (Nat × SceneSt)) (id : Nat) (v : Bool) :
    List (Nat × SceneSt) :=
  l.map fun p => if p.1 = id then (p.1, ⟨v⟩) else p

/-- `this.scenes.has(sceneId)`. -/
def SMState.hasScene (st : SMState) (id : Nat) : Bool :=
  st.scenes.any fun p => p.1 = id

/-- `if (this.activeScene) { this.activeScene.stop() }`
(scene-manager.js lines 49-52). -/
def stopActive (st : SMState) : SMState :=
  match st.activeSceneId with
  | some a => { st with scenes := setSceneActive st.scenes a false }
  | none => st

/-- `SceneManager.setActiveScene` (lines 44-64): throw on an unknown id
(reported here by the Boolean); otherwise stop the previously active scene,
record the new active id, then start the new scene. -/
def SMState.setActiveScene (st : SMState) (id : Nat) : SMState × Bool :=
  if st.hasScene id then
    let st1 := stopActive st
    let st2 := { st1 with activeSceneId := some id }
    ({ st2 with scenes := setSceneActive st2.scenes id true }, true)
  else (st, false)

/-- `SceneManager.createScene` (lines 10-21): insert a fresh inactive scene
under the next counter id; when it is the first scene, immediately make it
active. -/
def SMState.createScene (st : SMState) : SMState :=
  let id := st.sceneCounter + 1
  let st1 := { st with sceneCounter := id, scenes := st.scenes ++ [(id, ⟨false⟩)] }
  if st1.scenes.length = 1 then (st1.setActiveScene id).1 else st1

/-- `SceneManager.deleteScene` (lines 23-42): stop and remove the scene;
when it was the active one, switch to the first remaining scene, or clear
the active id when none remain. -/
def SMState.deleteScene (st : SMState) (id : Nat) : SMState × Bool :=
  if st.hasScene id then
    let st1 := { st with
      scenes := (setSceneActive st.scenes id false).filter fun p => p.1 != id }
    if st1.activeSceneId = some id then
      match st1.scenes.head? with
      | some p => ((st1.setActiveScene p.1).1, true)
      | none => ({ st1 with activeSceneId := none }, true)
    else (st1, true)
  else (st, false)

/-- The `SceneManager` states reachable from construction
(scene-manager.js lines 2-8) by any sequence of scene operations. -/
inductive ReachableSM : SMState → Prop
  | init : ReachableSM ⟨[], none, 0⟩
  | create {st : SMState} : ReachableSM st → ReachableSM st.createScene
  | delete {st : SMState} (id : Nat) : ReachableSM st → ReachableSM (st.deleteScene id).1
  | setActive {st : SMState} (id : Nat) :
      ReachableSM st → ReachableSM (st.setActiveScene id).1

/-- The manager's switching invariant: every scene marked active is the one
the manager designates as active, scene keys are unique, and keys never
exceed the id counter. -/
def GoodSM (st : SMState) : Prop :=
  (∀ p ∈ st.scenes, p.2.isActive = true → st.activeSceneId = some p.1) ∧
    (st.scenes.map Prod.fst).Nodup ∧
    (∀ p ∈ st.scenes, p.1 ≤ st.sceneCounter)

/-! ## Plugin registry (part_002, `PluginManager`) -/

/-- The errors `registerPlugin` throws before touching the registry:
`Plugin must have id, name, and version properties` and
`Plugin with ID ... is already registered`. -/
inductive PluginError where
  | invalidPlugin
  | duplicatePlugin
deriving DecidableEq, Repr

/-- A plugin as `registerPlugin` consumes it: identity fields (a missing /
falsy field is modelled by the empty string) plus the `TYPE` tags of the
widget classes it declares (`""` models a class without a `TYPE`). -/
structure JsPlugin where
  id : String
  name : String
  version : String
  widgets : List String
deriving DecidableEq, Repr

/-- The `PluginManager` state: the plugin map and the widget-type map, both
insertion-ordered; a widget-type entry records the tag and the id of the
plugin that registered it. -/
structure PMState where
  plugins : List (String × JsPlugin)
  widgetTypes : List (String × String)
deriving DecidableEq, Repr

/-- `registerWidgetType` (part_002 lines 106-113): `Map.set` semantics —
overwrite in place when the tag exists (with a warning), append
otherwise. -/
def registerWidgetType (m : List (String × String)) (tag cls : String) :
    List (String × String) :=
  if m.any (fun p => p.1 = tag) then
    m.map fun p => if p.1 = tag then (tag, cls) else p
  else m ++ [(tag, cls)]

/-- `PluginManager.registerPlugin` (part_002 lines 35-74): throw
`invalidPlugin` when id, name or version is missing; throw
`duplicatePlugin` when the plugin id is already registered; otherwise
record the plugin and register every declared widget class that has a
`TYPE` tag (plugin `init` hook failures are swallowed and do not affect
the registry). -/
def PMState.registerPlugin (st : PMState) (p : JsPlugin) :
    PMState × Except PluginError Unit :=
  if p.id = "" ∨ p.name = "" ∨ p.version = "" then
    (st, Except.error PluginError.invalidPlugin)
  else if st.plugins.any (fun q => q.1 = p.id) then
    (st, Except.error PluginError.duplicatePlugin)
  else
    let wt := p.widgets.foldl
      (fun m tag => if tag = "" then m else registerWidgetType m tag p.id)
      st.widgetTypes
    ({ plugins := st.plugins ++ [(p.id, p)], widgetTypes := wt }, Except.ok ())

/-! ## Widget config merge (part_003 lines 7-30 and 70-84) -/

/-- A JavaScript value as it appears in widget configs. -/
inductive JVal where
  | num (n : Int)
  | bool (b : Bool)
  | str (s : String)
deriving DecidableEq, Repr

/-- JavaScript truthiness for config values: `0`, `false` and `""` are
falsy. -/
def truthy : JVal → Bool
  | JVal.num n => n != 0
  | JVal.bool b => b
  | JVal.str s => s != ""

/-- A config record: a partial map from option names to values (`none`
models an absent key / `undefined`). -/
def ConfigRec := String → Option JVal

/-- Object spread `{ ...c, ...p }`: keys of the partial override the base
config. -/
def mergeConfig (c p : ConfigRec) : ConfigRec :=
  fun k =>
    match p k with
    | some v => some v
    | none => c k

/-- `v || old` on a possibly-absent config value: the value when present
and truthy, else the fallback. -/
def jsOr (v : Option JVal) (old : JVal) : JVal :=
  match v with
  | some w => if truthy w then w else old
  | none => old

/-- The widget state `updateConfig` touches: the config record, the mirror
fields, and a count of `onConfigUpdate` hook invocations. -/
structure WConfigState where
  config : ConfigRec
  x : JVal
  y : JVal
  width : JVal
  height : JVal
  updateInterval : JVal
  enabled : JVal
  hookCalls : Nat

/-- `Widget.updateConfig` (part_003 lines 70-80): spread-merge the partial
into the config, then re-derive each mirror field as `config.f || old`
(for `enabled`: `config.enabled !== undefined ? config.enabled : old`),
then invoke the `onConfigUpdate` hook. -/
def WConfigState.updateConfig (w : WConfigState) (p : ConfigRec) : WConfigState :=
  let c := mergeConfig w.config p
  { config := c,
    x := jsOr (c "x") w.x,
    y := jsOr (c "y") w.y,
    width := jsOr (c "width") w.width,
    height := jsOr (c "height") w.height,
    updateInterval := jsOr (c "updateInterval") w.updateInterval,
    enabled :=
      match c "enabled" with
      | some v => v
      | none => w.enabled,
    hookCalls := w.hookCalls + 1 }

/-- `Widget.getDefaultConfig` (part_003 lines 21-30). -/
def defaultConfig : ConfigRec := fun k =>
  if k = "x" then some (JVal.num 0)
  else if k = "y" then some (JVal.num 0)
  else if k = "width" then some (JVal.num 64)
  else if k = "height" then some (JVal.num 64)
  else if k = "updateInterval" then some (JVal.num 1000)
  else if k = "enabled" then some (JVal.bool true)
  else none

/-- The widget constructor (part_003 lines 7-19): merge defaults with the
user config, then derive the mirrors with `||` against the literal
constructor fallbacks; `enabled` is set literally to `true`. -/
def mkWidgetConfig (cfg : ConfigRec) : WConfigState :=
  let c := mergeConfig defaultConfig cfg
  { config := c,
    x := jsOr (c "x") (JVal.num 0),
    y := jsOr (c "y") (JVal.num 0),
    width := jsOr (c "width") (JVal.num 64),
    height := jsOr (c "height") (JVal.num 64),
    updateInterval := jsOr (c "updateInterval") (JVal.num 1000),
    enabled := JVal.bool true,
    hookCalls := 0 }

/-- The empty partial config `{}`. -/
def emptyPartial : ConfigRec := fun _ => none

/-- The one-field partial config `{x: v}`. -/
def xPartial (v : JVal) : ConfigRec :=
  fun k => if k = "x" then some v else none

/-! ## Wire encoding (pixoo-client.js lines 189-200, `bufferToPicData`) -/

/-- A lowercase hex digit character, as JavaScript `toString(16)` produces
them. -/
def hexDigitChar (n : Nat) : Char :=
  if n < 10 then Char.ofNat (48 + n) else Char.ofNat (87 + n)

/-- The digits of `n.toString(16)` in little-endian order (empty for 0). -/
def toHexRev (n : Nat) : List Char :=
  if h : n = 0 then []
  else hexDigitChar (n % 16) :: toHexRev (n / 16)
decreasing_by exact Nat.div_lt_self (Nat.pos_of_ne_zero h) (by decide)

/-- JavaScript `n.toString(16)` for a natural number, as a character
list. -/
def jsHexString (n : Nat) : List Char :=
  if n = 0 then ['0'] else (toHexRev n).reverse

/-- `padStart(6, '0')` (pixoo-client.js line 195). -/
def padStart6 (l : List Char) : List Char :=
  List.replicate (6 - l.length) '0' ++ l

/-- `(r << 16) | (g << 8) | b` (pixoo-client.js line 195). -/
def pixelVal (c : Color) : Nat :=
  (c.r <<< 16) ||| (c.g <<< 8) ||| c.b

/-- One pixel's hex representation:
`((r << 16) | (g << 8) | b).toString(16).padStart(6, '0')`. -/
def encodePixel (c : Color) : List Char :=
  padStart6 (jsHexString (pixelVal c))

/-- `PixooClient.bufferToPicData` (lines 189-200): row-major concatenation
of each pixel's 6 hex digits, red-green-blue, most significant first, with
no separators. -/
def bufferToPicData (rows : List (List Color)) : List Char :=
  (rows.map fun row => (row.map encodePixel).flatten).flatten

/-- Modelled from the spec: the numeric value of one lowercase hex digit
(the wire format of §6; no decoder exists in the source). -/
def hexDigitVal (c : Char) : Nat :=
  if 97 ≤ c.toNat then c.toNat - 87 else c.toNat - 48

/-- Modelled from the spec: parse a most-significant-first hex digit
string. -/
def parseHexNum (cs : List Char) : Nat :=
  cs.foldl (fun a c => a * 16 + hexDigitVal c) 0

/-- Modelled from the spec: decode one pixel's 6 hex digits — red first,
most significant first — into its three byte components. -/
def decodePixelChars (cs : List Char) : Color :=
  let n := parseHexNum cs
  ⟨n / 65536, n / 256 % 256, n % 256⟩

/-- Modelled from the spec: split the hex stream into pixels of 6
characters each. -/
def decodePixels (cs : List Char) : List Color :=
  if h : cs = [] then []
  else decodePixelChars (cs.take 6) :: decodePixels (cs.drop 6)
termination_by cs.length
decreasing_by
  simp only [List.length_drop]
  exact Nat.sub_lt (List.length_pos.mpr h) (by decide)

/-- Modelled from the spec: group the flat pixel sequence into rows of
`s`. -/
def chunkRows (s : Nat) (l : List Color) : List (List Color) :=
  if hs : s = 0 then []
  else if h : l = [] then []
  else l.take s :: chunkRows s (l.drop s)
termination_by l.length
decreasing_by
  simp only [List.length_drop]
  exact Nat.sub_lt (List.length_pos.mpr h) (Nat.pos_of_ne_zero hs)

/-- Modelled from the spec: the documented decode of the wire string for an
`s × s` buffer — row-major, 6 hex characters per pixel. -/
def documentedDecode (s : Nat) (cs : List Char) : List (List Color) :=
  chunkRows s (decodePixels cs)

/-! ## Theorems -/

/-- C8: the claim that `DeviceScanner` probes exactly the same ordered
endpoint list as `PixooClient` is false: the scanner's list omits the final
candidate, port 443 with path `/post`. -/
theorem scanner_endpoints_differ : scannerEndpoints ≠ clientEndpoints := by
  decide

/-- C8 (amended): `DeviceScanner.testDevice` tries exactly the first four of
`PixooClient`'s five candidates — port 80 `/post`, port 64 `/post`, port 80
`/api/post`, port 8080 `/post` — in the same order, omitting port 443
`/post`. -/
theorem scanner_endpoints_prefix_of_client :
    scannerEndpoints = clientEndpoints.take 4 ∧
      (443, "/post") ∈ clientEndpoints ∧ (443, "/post") ∉ scannerEndpoints := by
  refine ⟨rfl, by decide, by decide⟩

/-- Helper: `Widget.render` fires when the interval has elapsed. -/
theorem widgetRender_fire (w : WidgetTick) (now : Int)
    (hi : w.inited = true) (he : w.enabled = true)
    (h : now - w.lastUpdate ≥ w.updateInterval) :
    w.render now = { w with draws := w.draws + 1, lastUpdate := now } := by
  simp [WidgetTick.render, hi, he, h]

/-- Helper: `Widget.render` is the identity when the interval has not
elapsed. -/
theorem widgetRender_skip (w : WidgetTick) (now : Int)
    (hi : w.inited = true) (he : w.enabled = true)
    (h : ¬ (now - w.lastUpdate ≥ w.updateInterval)) :
    w.render now = w := by
  simp [WidgetTick.render, hi, he, h]

/-- C4: for an initialized, enabled base widget, one `render` invocation at
time `now` fires the draw hook and sets `lastUpdate = now` exactly when
`now - lastUpdate ≥ updateInterval`, and otherwise changes nothing; in
particular, starting fresh with interval `I ≥ 1`, ticking at `t = 0` then
`t = I - 1` does not draw on the second call, ticking again at `t = I` draws
exactly once, and an immediate repeat at `t = I` does not draw again. -/
theorem widget_render_cadence (w : WidgetTick) (now : Int)
    (hi : w.inited = true) (he : w.enabled = true) :
    ((now - w.lastUpdate ≥ w.updateInterval →
        w.render now = { w with draws := w.draws + 1, lastUpdate := now }) ∧
      (¬ (now - w.lastUpdate ≥ w.updateInterval) → w.render now = w)) ∧
    (∀ i : Int, 1 ≤ i →
      ((freshWidgetTick i).render 0).draws = 0 ∧
      (((freshWidgetTick i).render 0).render (i - 1)).draws
          = ((freshWidgetTick i).render 0).draws ∧
      ((((freshWidgetTick i).render 0).render (i - 1)).render i).draws
          = (((freshWidgetTick i).render 0).render (i - 1)).draws + 1 ∧
      (((((freshWidgetTick i).render 0).render (i - 1)).render i).render i).draws
          = ((((freshWidgetTick i).render 0).render (i - 1)).render i).draws) := by
  refine ⟨⟨widgetRender_fire w now hi he, widgetRender_skip w now hi he⟩, ?_⟩
  intro i hI
  have e1 : (freshWidgetTick i).render 0 = freshWidgetTick i :=
    widgetRender_skip _ _ rfl rfl (by simp only [freshWidgetTick]; omega)
  rw [e1]
  have e2 : (freshWidgetTick i).render (i - 1) = freshWidgetTick i :=
    widgetRender_skip _ _ rfl rfl (by simp only [freshWidgetTick]; omega)
  rw [e2]
  have e3 : (freshWidgetTick i).render i
      = { freshWidgetTick i with draws := 1, lastUpdate := i } :=
    widgetRender_fire _ _ rfl rfl (by simp only [freshWidgetTick]; omega)
  rw [e3]
  have e4 : ({ freshWidgetTick i with draws := 1, lastUpdate := i } : WidgetTick).render i
      = { freshWidgetTick i with draws := 1, lastUpdate := i } :=
    widgetRender_skip _ _ rfl rfl (by simp only [freshWidgetTick]; omega)
  rw [e4]
  simp [freshWidgetTick]

/-- Witness for `widget_render_cadence` at a concrete widget and interval. -/
theorem widget_render_cadence_witness :
    ((freshWidgetTick 5).render 7).draws = 1 ∧ ((freshWidgetTick 5).render 3).draws = 0 := by
  have h := widget_render_cadence (freshWidgetTick 5) 7 rfl rfl
  constructor
  · have := h.1.1 (by decide)
    rw [this]
    rfl
  · have := (widget_render_cadence (freshWidgetTick 5) 3 rfl rfl).1.2 (by decide)
    rw [this]
    rfl

/-- Helper: a `Widget.setPixel` call changes the buffer only at the
offset-translated coordinate, and only inside the 64×64 screen. -/
theorem setPixel_changes (w : Widget) (b : Buf) (x y : Int) (c : Color)
    (p q : Int) (h : (w.setPixel b x y c) p q ≠ b p q) :
    p = w.x + x ∧ q = w.y + y ∧ 0 ≤ p ∧ p < 64 ∧ 0 ≤ q ∧ q < 64 := by
  unfold Widget.setPixel at h
  by_cases hin : 0 ≤ w.x + x ∧ w.x + x < 64 ∧ 0 ≤ w.y + y ∧ w.y + y < 64
  · rw [if_pos hin] at h
    unfold clientSetPixel at h
    rw [if_pos ⟨hin.1, hin.2.1, hin.2.2.1, hin.2.2.2⟩] at h
    unfold bufWrite at h
    by_cases hpq : p = w.x + x ∧ q = w.y + y
    · exact ⟨hpq.1, hpq.2, by omega⟩
    · rw [if_neg hpq] at h
      exact absurd rfl h
  · rw [if_neg hin] at h
    exact absurd rfl h

/-- Helper: a fold of buffer transformations each of which only changes
pixels satisfying `R` itself only changes pixels satisfying `R`. -/
theorem foldl_changes {α : Type} (R : Int → Int → Prop) (f : Buf → α → Buf)
    (l : List α)
    (hf : ∀ b a, a ∈ l → ∀ p q, f b a p q ≠ b p q → R p q) :
    ∀ b p q, (l.foldl f b) p q ≠ b p q → R p q := by
  induction l with
  | nil => intro b p q h; exact absurd rfl h
  | cons a t ih =>
    intro b p q h
    by_cases h1 : f b a p q = b p q
    · have h2 : (t.foldl f (f b a)) p q ≠ (f b a) p q := by
        intro he; exact h (he.trans h1)
      exact ih (fun b' a' ha' => hf b' a' (List.mem_cons_of_mem a ha')) (f b a) p q h2
    · exact hf b a (List.mem_cons_self a t) p q h1

/-- Helper: `Widget.drawGlyph` only changes pixels to the lower-right of the
offset-translated pen position, inside the screen. -/
theorem drawGlyph_changes (w : Widget) (g : List Nat) (cx y : Int) (c : Color)
    (b : Buf) (p q : Int) (h : (w.drawGlyph b g cx y c) p q ≠ b p q) :
    w.x + cx ≤ p ∧ 0 ≤ p ∧ p < 64 ∧ w.y + y ≤ q ∧ 0 ≤ q ∧ q < 64 := by
  refine foldl_changes
    (R := fun p q => w.x + cx ≤ p ∧ 0 ≤ p ∧ p < 64 ∧ w.y + y ≤ q ∧ 0 ≤ q ∧ q < 64)
    _ _ ?_ b p q h
  intro b1 col _ p1 q1 h1
  refine foldl_changes
    (R := fun p q => w.x + cx ≤ p ∧ 0 ≤ p ∧ p < 64 ∧ w.y + y ≤ q ∧ 0 ≤ q ∧ q < 64)
    _ _ ?_ b1 p1 q1 h1
  intro b2 row _ p2 q2 h2
  by_cases hbit : (g.getD col 0) &&& (1 <<< (6 - row)) ≠ 0
  · rw [if_pos hbit] at h2
    have := setPixel_changes w b2 (cx + col) (y + row) c p2 q2 h2
    omega
  · rw [if_neg hbit] at h2
    exact absurd rfl h2

/-- Helper: `Widget.drawText` only changes pixels to the lower-right of the
offset-translated text origin, inside the screen. -/
theorem drawText_changes (w : Widget) (c : Color) (y : Int) :
    ∀ (text : List Char) (x : Int) (b : Buf) (p q : Int),
      (w.drawText b text x y c) p q ≠ b p q →
        w.x + x ≤ p ∧ 0 ≤ p ∧ p < 64 ∧ w.y + y ≤ q ∧ 0 ≤ q ∧ q < 64 := by
  intro text
  induction text with
  | nil =>
    intro x b p q h
    exact absurd rfl h
  | cons ch rest ih =>
    intro x b p q h
    rw [Widget.drawText] at h
    by_cases hg : (w.drawGlyph b (glyphFor ch) x y c) p q = b p q
    · have h2 : (w.drawText (w.drawGlyph b (glyphFor ch) x y c) rest (x + 6) y c) p q
          ≠ (w.drawGlyph b (glyphFor ch) x y c) p q := by
        intro he; exact h (he.trans hg)
      have := ih (x + 6) _ p q h2
      omega
    · have := drawGlyph_changes w (glyphFor ch) x y c b p q hg
      omega

/-- C1 (counterexample): a widget whose own rectangle is the single cell at
`(0, 0)` can nevertheless write the screen pixel `(5, 5)` through its
`setPixel` primitive — the write is clamped to the 64×64 screen only, not to
the widget's `width × height` rectangle. -/
theorem widget_setPixel_escapes_own_rect :
    (cexWidget.setPixel clearBuf 5 5 ⟨255, 0, 0⟩) 5 5 ≠ black ∧
      ¬ (cexWidget.x ≤ 5 ∧ 5 < cexWidget.x + cexWidget.width ∧
          cexWidget.y ≤ 5 ∧ 5 < cexWidget.y + cexWidget.height) := by
  decide

/-- C1 (amended): every write issued by a widget's `setPixel` primitive (the
funnel for all of its drawing primitives) lands exactly at the coordinate
translated by the widget's `(x, y)` offset and is clamped to the shared
64×64 buffer — but not to the widget's own rectangle; and after one render
tick of a scene containing only a Clock widget at `(2, 2)` with its default
64×64 geometry, every non-black pixel lies within `[2, 2]` to
`[2 + width, 2 + height]`. -/
theorem widget_draw_translated_and_clock_tick_contained :
    (∀ (w : Widget) (b : Buf) (x y : Int) (c : Color) (p q : Int),
        (w.setPixel b x y c) p q ≠ b p q →
          p = w.x + x ∧ q = w.y + y ∧ 0 ≤ p ∧ p < 64 ∧ 0 ≤ q ∧ q < 64) ∧
    (∀ (now last interval : Int) (t : List Char) (p q : Int),
        clockSceneTick now last interval t p q ≠ black →
          2 ≤ p ∧ p ≤ 2 + clockAt22.width ∧ 2 ≤ q ∧ q ≤ 2 + clockAt22.height) := by
  refine ⟨setPixel_changes, ?_⟩
  intro now last interval t p q h
  unfold clockSceneTick at h
  by_cases hfire : now - last ≥ interval
  · rw [if_pos hfire] at h
    unfold clockOnRender at h
    have hbg : ¬ (black.r ≠ 0 ∨ black.g ≠ 0 ∨ black.b ≠ 0) := by decide
    rw [if_neg hbg] at h
    have h2 : (clockAt22.drawText clearBuf t 2 2 white) p q ≠ clearBuf p q := h
    have := drawText_changes clockAt22 white 2 t 2 clearBuf p q h2
    simp only [clockAt22] at this ⊢
    omega
  · rw [if_neg hfire] at h
    exact absurd rfl h

/-- Witness for `widget_draw_translated_and_clock_tick_contained`: the tick
at `now = 1000` with the time string `"1"` lights screen pixel `(5, 4)`,
which indeed lies in the rectangle. -/
theorem widget_draw_clock_tick_witness :
    2 ≤ (5 : Int) ∧ (5 : Int) ≤ 2 + clockAt22.width ∧
      2 ≤ (4 : Int) ∧ (4 : Int) ≤ 2 + clockAt22.height :=
  widget_draw_translated_and_clock_tick_contained.2 1000 0 1000 ['1'] 5 4 (by decide)

/-- Helper: one step of the widget loop over an enabled widget whose hook
succeeds. -/
theorem runWidgets_cons_ok (j : Nat) (w : SceneWidget)
    (ws : List (Nat × SceneWidget)) (b b' : Buf)
    (hen : w.enabled = true) (hb' : w.run b = Except.ok b') :
    runWidgets ((j, w) :: ws) b
      = ((runWidgets ws b').1, j :: (runWidgets ws b').2.1, (runWidgets ws b').2.2) := by
  unfold runWidgets
  rw [hen, if_pos rfl, hb']
  simp only []
  rw [← runWidgets.eq_def]

/-- Helper: when the widget list is a run of enabled, successful widgets
followed by an enabled widget whose hook throws, the widget loop reports
exactly the successful prefix as rendered and ends with an error. -/
theorem runWidgets_throw (post : List (Nat × SceneWidget)) (i : Nat)
    (wt : SceneWidget) (hwt : wt.enabled = true)
    (hthrow : ∀ b, ∃ e, wt.run b = Except.error e) :
    ∀ (pre : List (Nat × SceneWidget)),
      (∀ p ∈ pre, p.2.enabled = true ∧ ∀ b, ∃ b', p.2.run b = Except.ok b') →
      ∀ b, (runWidgets (pre ++ (i, wt) :: post) b).2.1 = pre.map Prod.fst ∧
        ∃ e, (runWidgets (pre ++ (i, wt) :: post) b).2.2 = some e := by
  intro pre
  induction pre with
  | nil =>
    intro _ b
    obtain ⟨e, he⟩ := hthrow b
    simp [runWidgets, hwt, he]
  | cons p t ih =>
    intro hpre b
    obtain ⟨hen, hok⟩ := hpre p (List.mem_cons_self p t)
    obtain ⟨b', hb'⟩ := hok b
    rcases p with ⟨j, w⟩
    have ht := ih (fun p' hp' => hpre p' (List.mem_cons_of_mem _ hp')) b'
    rw [List.cons_append, runWidgets_cons_ok j w _ b b' hen hb']
    simpa using ht

/-- Helper: when the widget loop of a tick ends with a widget error,
`Scene.render` does not push: the rendered ids come from the loop, the push
flag is false, and nothing is appended to the transport log. -/
theorem sceneRender_of_error (cl : Client) (ws : List (Nat × SceneWidget))
    (e : String) (h : (runWidgets ws clearBuf).2.2 = some e) :
    (sceneRender true cl ws).2.1 = (runWidgets ws clearBuf).2.1 ∧
      (sceneRender true cl ws).2.2 = false ∧
      (sceneRender true cl ws).1.sent = cl.sent := by
  unfold sceneRender
  rcases hr : runWidgets ws clearBuf with ⟨b', ran, err⟩
  rw [hr] at h
  simp only at h
  subst h
  simp

/-- C2 (counterexample): in a tick of an active, connected scene whose first
widget's hook throws, the second (healthy, enabled) widget does not render
and the frame is not pushed — the error is caught per-tick at the scene
level, not per-widget. -/
theorem scene_render_throw_stops_tick :
    (sceneRender true cexClient [(1, cexThrower), (2, cexDrawer)]).2.1 = [] ∧
      (sceneRender true cexClient [(1, cexThrower), (2, cexDrawer)]).2.2 = false ∧
      (sceneRender true cexClient [(1, cexThrower), (2, cexDrawer)]).1.sent = [] := by
  refine ⟨rfl, rfl, rfl⟩

/-- C2 (amended): a widget error during a tick is caught at the scene
level, once per tick: the enabled widgets preceding the throwing widget
render their contributions, the widgets after it are skipped for that tick,
the frame is not pushed, and the render function still returns normally
(nothing is appended to the transport log and the loop is not torn down). -/
theorem scene_render_error_caught_per_tick (cl : Client)
    (pre post : List (Nat × SceneWidget)) (i : Nat) (wt : SceneWidget)
    (hpre : ∀ p ∈ pre, p.2.enabled = true ∧ ∀ b, ∃ b', p.2.run b = Except.ok b')
    (hwt : wt.enabled = true)
    (hthrow : ∀ b, ∃ e, wt.run b = Except.error e) :
    (sceneRender true cl (pre ++ (i, wt) :: post)).2.1 = pre.map Prod.fst ∧
      (sceneRender true cl (pre ++ (i, wt) :: post)).2.2 = false ∧
      (sceneRender true cl (pre ++ (i, wt) :: post)).1.sent = cl.sent := by
  obtain ⟨hran, e, herr⟩ := runWidgets_throw post i wt hwt hthrow pre hpre clearBuf
  obtain ⟨h1, h2, h3⟩ := sceneRender_of_error cl (pre ++ (i, wt) :: post) e herr
  exact ⟨h1.trans hran, h2, h3⟩

/-- Witness for `scene_render_error_caught_per_tick` with one healthy widget
before and one after the throwing widget. -/
theorem scene_render_error_caught_witness :
    (sceneRender true cexClient [(1, cexDrawer), (2, cexThrower), (3, cexDrawer)]).2.1 = [1] ∧
      (sceneRender true cexClient [(1, cexDrawer), (2, cexThrower), (3, cexDrawer)]).2.2 = false ∧
      (sceneRender true cexClient [(1, cexDrawer), (2, cexThrower), (3, cexDrawer)]).1.sent
        = cexClient.sent := by
  have h := scene_render_error_caught_per_tick cexClient [(1, cexDrawer)] [(3, cexDrawer)]
    2 cexThrower
    (by
      intro p hp
      rw [List.mem_singleton] at hp
      subst hp
      exact ⟨rfl, fun b => ⟨bufWrite b 0 0 white, rfl⟩⟩)
    rfl
    (fun b => ⟨"boom", rfl⟩)
  exact ⟨h.1.trans rfl, h.2.1, h.2.2⟩

/-- C10: `Scene.renderPreview` mutates only the shared pixel buffer — the
buffer becomes the result of clearing and running the widget loop (each
enabled widget in insertion order) — and, whatever the connection state,
transmits nothing: the transport log, `connected` flag, negotiated endpoint
and address are all unchanged. -/
theorem renderPreview_buffer_only (cl : Client) (ws : List (Nat × SceneWidget)) :
    (renderPreview cl ws).connected = cl.connected ∧
      (renderPreview cl ws).port = cl.port ∧
      (renderPreview cl ws).path = cl.path ∧
      (renderPreview cl ws).ipAddress = cl.ipAddress ∧
      (renderPreview cl ws).sent = cl.sent ∧
      (renderPreview cl ws).buffer = (runWidgets ws clearBuf).1 := by
  unfold renderPreview
  rcases hr : runWidgets ws clearBuf with ⟨b', ran, err⟩
  cases err <;> simp

/-- Helper: a transport outcome that is not a success is an error with some
message. -/
theorem not_ok_exists_error {ε : Type} (x : Except ε Unit) (h : x ≠ Except.ok ()) :
    ∃ m, x = Except.error m := by
  cases x with
  | error m => exact ⟨m, rfl⟩
  | ok u => cases u; exact absurd rfl h

/-- Helper: when every candidate in the full endpoint list fails, the
endpoint loop of `connect` clears the connection state and throws, carrying
the last candidate's transport error. -/
theorem tryEndpoints_all_fail (test : Endpoint → Except String Unit)
    (cl : Client) (le0 : Option String)
    (h : ∀ e ∈ clientEndpoints, test e ≠ Except.ok ()) :
    ∃ m, test (443, "/post") = Except.error m ∧
      tryEndpoints test cl clientEndpoints le0 =
        ({ cl with connected := false, port := none, path := none },
          Except.error (ConnectError.allEndpointsFailed (some m))) := by
  obtain ⟨m1, ht1⟩ := not_ok_exists_error _ (h (80, "/post") (by simp [clientEndpoints]))
  obtain ⟨m2, ht2⟩ := not_ok_exists_error _ (h (64, "/post") (by simp [clientEndpoints]))
  obtain ⟨m3, ht3⟩ := not_ok_exists_error _ (h (80, "/api/post") (by simp [clientEndpoints]))
  obtain ⟨m4, ht4⟩ := not_ok_exists_error _ (h (8080, "/post") (by simp [clientEndpoints]))
  obtain ⟨m5, ht5⟩ := not_ok_exists_error _ (h (443, "/post") (by simp [clientEndpoints]))
  refine ⟨m5, ht5, ?_⟩
  simp [clientEndpoints, tryEndpoints, ht1, ht2, ht3, ht4, ht5]

/-- Helper: if the endpoint loop returns successfully, the client it returns
is connected, stores an endpoint that tested successfully, and `sendTarget`
uses exactly that endpoint. -/
theorem tryEndpoints_ok (test : Endpoint → Except String Unit) (cl : Client) :
    ∀ (l : List Endpoint) (le0 : Option String) (cl' : Client) (u : Unit),
      tryEndpoints test cl l le0 = (cl', Except.ok u) →
      cl'.connected = true ∧ ∃ p pa, cl'.port = some p ∧ cl'.path = some pa ∧
        test (p, pa) = Except.ok () ∧ cl'.sendTarget = Except.ok (p, pa) := by
  intro l
  induction l with
  | nil =>
    intro le0 cl' u h
    simp [tryEndpoints] at h
  | cons e rest ih =>
    intro le0 cl' u h
    cases ht : test e with
    | ok v =>
      cases v
      simp only [tryEndpoints, ht] at h
      injection h with h1 _
      subst h1
      refine ⟨rfl, e.1, e.2, rfl, rfl, ht, ?_⟩
      simp [Client.sendTarget]
    | error m =>
      simp only [tryEndpoints, ht] at h
      exact ih (some m) cl' u h

/-- Helper: the endpoint loop adopts the first succeeding candidate: with
every earlier candidate failing and candidate `e` succeeding, the loop
stores `e` and reports success. -/
theorem tryEndpoints_first_ok (test : Endpoint → Except String Unit) (cl : Client) :
    ∀ (pre : List Endpoint) (e : Endpoint) (rest : List Endpoint) (le0 : Option String),
      (∀ e' ∈ pre, test e' ≠ Except.ok ()) → test e = Except.ok () →
      tryEndpoints test cl (pre ++ e :: rest) le0 =
        ({ cl with connected := true, port := some e.1, path := some e.2 },
          Except.ok ()) := by
  intro pre
  induction pre with
  | nil =>
    intro e rest le0 _ he
    simp [tryEndpoints, he]
  | cons e' t ih =>
    intro e rest le0 hpre he
    obtain ⟨m, hm⟩ := not_ok_exists_error _ (hpre e' (List.mem_cons_self e' t))
    rw [List.cons_append]
    simp only [tryEndpoints, hm]
    exact ih e rest (some m) (fun x hx => hpre x (List.mem_cons_of_mem _ hx)) he

/-- C3: `PixooClient.connect` with an address set: (1) when every endpoint
attempt fails, the client ends disconnected with a cleared negotiated
endpoint and the thrown all-endpoints-failed error carries the last
candidate's transport error; (2) whenever connect succeeds, the client is
connected, stores a `(port, path)` pair whose test succeeded, and
`sendCommand` transmits on exactly that stored endpoint; (3) with no
previously negotiated endpoint, the first succeeding candidate of the
ordered list is the one stored. -/
theorem connect_endpoint_negotiation (cl : Client) (a : String)
    (test : Endpoint → Except String Unit) (ha : cl.ipAddress = some a) :
    ((∀ e : Endpoint, test e ≠ Except.ok ()) →
      ∃ m, test (443, "/post") = Except.error m ∧
        cl.connect test =
          ({ cl with connected := false, port := none, path := none },
            Except.error (ConnectError.allEndpointsFailed (some m)))) ∧
    (∀ (cl' : Client) (u : Unit), cl.connect test = (cl', Except.ok u) →
      cl'.connected = true ∧ ∃ p pa, cl'.port = some p ∧ cl'.path = some pa ∧
        test (p, pa) = Except.ok () ∧ cl'.sendTarget = Except.ok (p, pa)) ∧
    (cl.port = none →
      ∀ (pre : List Endpoint) (e : Endpoint) (rest : List Endpoint),
        clientEndpoints = pre ++ e :: rest →
        (∀ e' ∈ pre, test e' ≠ Except.ok ()) → test e = Except.ok () →
        cl.connect test =
          ({ cl with connected := true, port := some e.1, path := some e.2 },
            Except.ok ())) := by
  obtain ⟨ip, conn, port0, path0, buf0, sent0⟩ := cl
  have ha' : ip = some a := ha
  subst ha'
  refine ⟨?_, ?_, ?_⟩
  · intro hfail
    obtain ⟨m, hm, heq⟩ :=
      tryEndpoints_all_fail test (Client.mk (some a) conn port0 path0 buf0 sent0)
        none (fun e _ => hfail e)
    refine ⟨m, hm, ?_⟩
    cases port0 with
    | none => exact heq
    | some p =>
      cases path0 with
      | none => exact heq
      | some pa =>
        obtain ⟨m', hm'⟩ := not_ok_exists_error _ (hfail (p, pa))
        show connectPreferred
            (Client.mk (some a) conn (some p) (some pa) buf0 sent0) test p pa = _
        unfold connectPreferred
        rw [hm']
        exact heq
  · intro cl' u h
    cases port0 with
    | none =>
      exact tryEndpoints_ok test
        (Client.mk (some a) conn none path0 buf0 sent0) clientEndpoints none cl' u h
    | some p =>
      cases path0 with
      | none =>
        exact tryEndpoints_ok test
          (Client.mk (some a) conn (some p) none buf0 sent0) clientEndpoints none cl' u h
      | some pa =>
        have h2 : connectPreferred
            (Client.mk (some a) conn (some p) (some pa) buf0 sent0) test p pa
            = (cl', Except.ok u) := h
        unfold connectPreferred at h2
        cases ht : test (p, pa) with
        | ok v =>
          cases v
          rw [ht] at h2
          have h3 : ((Client.mk (some a) true (some p) (some pa) buf0 sent0 : Client),
              (Except.ok () : Except ConnectError Unit)) = (cl', Except.ok u) := h2
          injection h3 with h1 _
          subst h1
          exact ⟨rfl, p, pa, rfl, rfl, ht, rfl⟩
        | error m =>
          rw [ht] at h2
          exact tryEndpoints_ok test
            (Client.mk (some a) conn (some p) (some pa) buf0 sent0)
            clientEndpoints none cl' u h2
  · intro hp pre e rest hsplit hpre he
    have hp' : port0 = none := hp
    subst hp'
    show tryEndpoints test
        (Client.mk (some a) conn none path0 buf0 sent0) clientEndpoints none = _
    rw [hsplit]
    exact tryEndpoints_first_ok test
      (Client.mk (some a) conn none path0 buf0 sent0) pre e rest none hpre he

/-- Witness for `connect_endpoint_negotiation`: a fresh client whose every
transport attempt fails with `"down"` ends disconnected with a cleared
endpoint and the all-endpoints-failed error carrying `"down"`. -/
theorem connect_endpoint_negotiation_witness :
    (freshClient.connect (fun _ => Except.error "down")).1.connected = false ∧
      (freshClient.connect (fun _ => Except.error "down")).1.port = none ∧
      (freshClient.connect (fun _ => Except.error "down")).1.path = none ∧
      (freshClient.connect (fun _ => Except.error "down")).2
        = Except.error (ConnectError.allEndpointsFailed (some "down")) := by
  obtain ⟨m, hm, heq⟩ :=
    (connect_endpoint_negotiation freshClient "192.168.1.5"
      (fun _ => Except.error "down") rfl).1
      (fun e h => Except.noConfusion h)
  have hm' : m = "down" := by
    injection hm with h1
    exact h1.symm
  subst hm'
  rw [heq]
  exact ⟨rfl, rfl, rfl, rfl⟩

/-- Helper: membership in `setSceneActive`: an entry either is the updated
scene (with the new flag) or an untouched entry of the original list. -/
theorem setSceneActive_mem {l : List (Nat × SceneSt)} {id : Nat} {v : Bool}
    {p : Nat × SceneSt} (hp : p ∈ setSceneActive l id v) :
    (p.1 = id ∧ p.2 = ⟨v⟩) ∨ (p.1 ≠ id ∧ p ∈ l) := by
  unfold setSceneActive at hp
  obtain ⟨q, hq, hfq⟩ := List.mem_map.mp hp
  by_cases hqid : q.1 = id
  · rw [if_pos hqid] at hfq
    subst hfq
    exact Or.inl ⟨hqid, rfl⟩
  · rw [if_neg hqid] at hfq
    subst hfq
    exact Or.inr ⟨hqid, hq⟩

/-- Helper: `setSceneActive` never changes the key sequence. -/
theorem setSceneActive_map_fst (l : List (Nat × SceneSt)) (id : Nat) (v : Bool) :
    (setSceneActive l id v).map Prod.fst = l.map Prod.fst := by
  unfold setSceneActive
  rw [List.map_map]
  apply List.map_congr_left
  intro q _
  by_cases h : q.1 = id <;> simp [h]

/-- Helper: `stopActive` never changes the key sequence. -/
theorem stopActive_map_fst (st : SMState) :
    (stopActive st).scenes.map Prod.fst = st.scenes.map Prod.fst := by
  unfold stopActive
  cases st.activeSceneId with
  | none => rfl
  | some a => exact setSceneActive_map_fst st.scenes a false

/-- Helper: a key present in a scene list's key sequence belongs to some
entry. -/
theorem key_mem_exists {l : List (Nat × SceneSt)} {k : Nat}
    (h : k ∈ l.map Prod.fst) : ∃ q ∈ l, q.1 = k := by
  obtain ⟨q, hq, hqk⟩ := List.mem_map.mp h
  exact ⟨q, hq, hqk⟩

/-- Helper: after `stopActive`, no scene in the map is active (given the
switching invariant's first clause). -/
theorem stopActive_no_active (st : SMState)
    (hact : ∀ p ∈ st.scenes, p.2.isActive = true → st.activeSceneId = some p.1) :
    ∀ p ∈ (stopActive st).scenes, p.2.isActive = false := by
  intro p hp
  unfold stopActive at hp
  cases ha : st.activeSceneId with
  | none =>
    rw [ha] at hp
    cases hpa : p.2.isActive with
    | false => rfl
    | true =>
      have := hact p hp hpa
      rw [ha] at this
      exact Option.noConfusion this
  | some a =>
    rw [ha] at hp
    rcases setSceneActive_mem hp with ⟨-, h2⟩ | ⟨hne, hporig⟩
    · rw [h2]
    · cases hpa : p.2.isActive with
      | false => rfl
      | true =>
        have := hact p hporig hpa
        rw [ha] at this
        injection this with h3
        exact absurd h3.symm hne

/-- Helper: in a list with unique keys in which every active entry has key
`a`, at most one entry is active. -/
theorem activeFilter_le_one (l : List (Nat × SceneSt)) (a : Nat)
    (hn : (l.map Prod.fst).Nodup)
    (h : ∀ p ∈ l, p.2.isActive = true → p.1 = a) :
    (l.filter fun p => p.2.isActive).length ≤ 1 := by
  induction l with
  | nil => simp
  | cons p t ih =>
    simp only [List.map_cons, List.nodup_cons] at hn
    by_cases hp : p.2.isActive = true
    · have hpa := h p (List.mem_cons_self p t) hp
      have ht0 : (t.filter fun q => q.2.isActive) = [] := by
        rw [List.filter_eq_nil_iff]
        intro q hq hqa
        have hqa' := h q (List.mem_cons_of_mem p hq) hqa
        exact hn.1 (hpa ▸ hqa' ▸ List.mem_map_of_mem Prod.fst hq)
      simp [List.filter_cons, hp, ht0]
    · simp only [List.filter_cons, hp, Bool.false_eq_true, ite_false]
      exact ih hn.2 (fun q hq => h q (List.mem_cons_of_mem p hq))

/-- Helper: `stopActive` keeps the id counter. -/
theorem stopActive_sceneCounter (st : SMState) :
    (stopActive st).sceneCounter = st.sceneCounter := by
  unfold stopActive
  cases st.activeSceneId <;> rfl

/-- Helper: `setActiveScene` preserves the switching invariant. -/
theorem goodSM_setActive (st : SMState) (id : Nat) (hg : GoodSM st) :
    GoodSM (st.setActiveScene id).1 := by
  obtain ⟨hact, hnd, hcnt⟩ := hg
  unfold SMState.setActiveScene
  by_cases hh : st.hasScene id
  · rw [if_pos hh]
    dsimp only
    refine ⟨?_, ?_, ?_⟩
    · intro p hp hpa
      rcases setSceneActive_mem hp with ⟨he, -⟩ | ⟨-, hp2⟩
      · simp [he]
      · exact absurd hpa (by simp [stopActive_no_active st hact p hp2])
    · rw [setSceneActive_map_fst, stopActive_map_fst]
      exact hnd
    · intro p hp
      rw [stopActive_sceneCounter]
      have hkey : p.1 ∈ st.scenes.map Prod.fst := by
        rcases setSceneActive_mem hp with ⟨he, -⟩ | ⟨-, hp2⟩
        · unfold SMState.hasScene at hh
          rw [List.any_eq_true] at hh
          obtain ⟨q, hq, hq2⟩ := hh
          rw [he, ← of_decide_eq_true hq2]
          exact List.mem_map_of_mem Prod.fst hq
        · rw [← stopActive_map_fst st]
          exact List.mem_map_of_mem Prod.fst hp2
      obtain ⟨q, hq, hqk⟩ := key_mem_exists hkey
      rw [← hqk]
      exact hcnt q hq
  · rw [if_neg hh]
    exact ⟨hact, hnd, hcnt⟩

/-- Helper: `createScene` preserves the switching invariant. -/
theorem goodSM_create (st : SMState) (hg : GoodSM st) : GoodSM st.createScene := by
  obtain ⟨hact, hnd, hcnt⟩ := hg
  have hg1 : GoodSM (SMState.mk
      (st.scenes ++ [(st.sceneCounter + 1, ⟨false⟩)])
      st.activeSceneId (st.sceneCounter + 1)) := by
    refine ⟨?_, ?_, ?_⟩
    · intro p hp hpa
      rcases List.mem_append.mp hp with hpo | hpn
      · exact hact p hpo hpa
      · rw [List.mem_singleton] at hpn
        subst hpn
        exact absurd hpa (by simp)
    · rw [List.map_append, List.nodup_append]
      refine ⟨hnd, by simp, ?_⟩
      intro a ha hmem
      simp only [List.map_cons, List.map_nil, List.mem_singleton] at hmem
      obtain ⟨q, hq, hqk⟩ := key_mem_exists ha
      have := hcnt q hq
      omega
    · intro p hp
      rcases List.mem_append.mp hp with hpo | hpn
      · have := hcnt p hpo
        simp only
        omega
      · rw [List.mem_singleton] at hpn
        subst hpn
        simp
  unfold SMState.createScene
  dsimp only
  split
  · exact goodSM_setActive _ _ hg1
  · exact hg1

/-- Helper: `deleteScene` preserves the switching invariant. -/
theorem goodSM_delete (st : SMState) (id : Nat) (hg : GoodSM st) :
    GoodSM (st.deleteScene id).1 := by
  obtain ⟨hact, hnd, hcnt⟩ := hg
  unfold SMState.deleteScene
  by_cases hh : st.hasScene id
  · rw [if_pos hh]
    dsimp only
    have hmem1 : ∀ p : Nat × SceneSt,
        p ∈ (setSceneActive st.scenes id false).filter (fun q => q.1 != id) →
        p.1 ≠ id ∧ p ∈ st.scenes := by
      intro p hp
      rw [List.mem_filter] at hp
      have hne : p.1 ≠ id := by simpa using hp.2
      rcases setSceneActive_mem hp.1 with ⟨he, -⟩ | ⟨-, hpo⟩
      · exact absurd he hne
      · exact ⟨hne, hpo⟩
    have hnd1 : (((setSceneActive st.scenes id false).filter
        (fun q => q.1 != id)).map Prod.fst).Nodup := by
      have hsub : List.Sublist
          ((setSceneActive st.scenes id false).filter (fun q => q.1 != id))
          (setSceneActive st.scenes id false) := List.filter_sublist _
      have hsub2 := hsub.map Prod.fst
      rw [setSceneActive_map_fst] at hsub2
      exact hnd.sublist hsub2
    have hg1 : GoodSM (SMState.mk
        ((setSceneActive st.scenes id false).filter fun q => q.1 != id)
        st.activeSceneId st.sceneCounter) := by
      refine ⟨?_, hnd1, ?_⟩
      · intro p hp hpa
        exact hact p (hmem1 p hp).2 hpa
      · intro p hp
        exact hcnt p (hmem1 p hp).2
    split
    · rename_i hai
      split
      · exact goodSM_setActive _ _ hg1
      · refine ⟨?_, hg1.2.1, hg1.2.2⟩
        intro p hp hpa
        exfalso
        have h1 := hg1.1 p hp hpa
        rw [hai] at h1
        injection h1 with h2
        exact (hmem1 p hp).1 h2.symm
    · exact hg1
  · rw [if_neg hh]
    exact ⟨hact, hnd, hcnt⟩

/-- Helper: every reachable `SceneManager` state satisfies the switching
invariant. -/
theorem goodSM_reachable (st : SMState) (hr : ReachableSM st) : GoodSM st := by
  induction hr with
  | init => exact ⟨by simp, by simp, by simp⟩
  | create _ ih => exact goodSM_create _ ih
  | delete id _ ih => exact goodSM_delete _ id ih
  | setActive id _ ih => exact goodSM_setActive _ id ih

/-- C7: in every reachable `SceneManager` state at most one scene is
active; and switching to any existing scene `B` passes through the
intermediate state `stopActive` in which every scene — in particular the
previously active one and `B` itself — is inactive, before the final state
marks `B` active. -/
theorem sceneManager_single_active (st : SMState) (hr : ReachableSM st) :
    (st.scenes.filter fun p => p.2.isActive).length ≤ 1 ∧
      (∀ B, st.hasScene B = true →
        (∀ p ∈ (stopActive st).scenes, p.2.isActive = false) ∧
        (∀ p ∈ (st.setActiveScene B).1.scenes, p.1 = B → p.2.isActive = true)) := by
  obtain ⟨hact, hnd, hcnt⟩ := goodSM_reachable st hr
  constructor
  · cases ha : st.activeSceneId with
    | none =>
      refine activeFilter_le_one st.scenes 0 hnd ?_
      intro p hp hpa
      have := hact p hp hpa
      rw [ha] at this
      exact Option.noConfusion this
    | some a =>
      refine activeFilter_le_one st.scenes a hnd ?_
      intro p hp hpa
      have := hact p hp hpa
      rw [ha] at this
      injection this with h2
      exact h2.symm
  · intro B hB
    refine ⟨stopActive_no_active st hact, ?_⟩
    intro p hp hpB
    unfold SMState.setActiveScene at hp
    rw [if_pos hB] at hp
    dsimp only at hp
    rcases setSceneActive_mem hp with ⟨-, h2⟩ | ⟨hne, -⟩
    · rw [h2]
    · exact absurd hpB hne

/-- Witness for `sceneManager_single_active` at the reachable state with
two scenes obtained by creating twice (scene 1 auto-activated). -/
theorem sceneManager_single_active_witness :
    (((SMState.mk [] none 0).createScene.createScene.scenes.filter
        fun p => p.2.isActive).length ≤ 1) ∧
      ((1, (⟨false⟩ : SceneSt)) : Nat × SceneSt).2.isActive = false := by
  have h := sceneManager_single_active
    ((SMState.mk [] none 0).createScene.createScene)
    (ReachableSM.create (ReachableSM.create ReachableSM.init))
  refine ⟨h.1, ?_⟩
  exact (h.2 2 (by decide)).1 (1, ⟨false⟩) (by decide)

/-- C9: `registerPlugin` with a (well-formed) plugin whose id is already
registered throws the duplicate-plugin error and returns the registry —
both the plugin map and the widget-type map — exactly as it was; with a
missing id, name or version it throws the invalid-plugin error, again
leaving the registry untouched. -/
theorem registerPlugin_errors (st : PMState) (p : JsPlugin) :
    ((p.id ≠ "" ∧ p.name ≠ "" ∧ p.version ≠ "") →
      st.plugins.any (fun q => q.1 = p.id) = true →
      st.registerPlugin p = (st, Except.error PluginError.duplicatePlugin)) ∧
    ((p.id = "" ∨ p.name = "" ∨ p.version = "") →
      st.registerPlugin p = (st, Except.error PluginError.invalidPlugin)) := by
  constructor
  · intro hvalid hdup
    unfold PMState.registerPlugin
    rw [if_neg (by push_neg; exact hvalid), if_pos hdup]
  · intro hmiss
    unfold PMState.registerPlugin
    rw [if_pos hmiss]

/-- Witness for `registerPlugin_errors`: registering `demo` twice throws
the duplicate error with the registry unchanged, and a plugin missing its
version throws the invalid error. -/
theorem registerPlugin_errors_witness :
    (PMState.mk [("demo", ⟨"demo", "Demo", "1.0", ["clock"]⟩)] [("clock", "demo")]
        ).registerPlugin ⟨"demo", "Demo2", "2.0", []⟩
      = (PMState.mk [("demo", ⟨"demo", "Demo", "1.0", ["clock"]⟩)] [("clock", "demo")],
          Except.error PluginError.duplicatePlugin) ∧
    (PMState.mk [] []).registerPlugin ⟨"x", "X", "", []⟩
      = (PMState.mk [] [], Except.error PluginError.invalidPlugin) := by
  constructor
  · exact (registerPlugin_errors _ _).1 (by decide) (by decide)
  · exact (registerPlugin_errors _ _).2 (by decide)

/-- C6 (counterexample): the mirror fields are not re-derived from the
merged config alone.  Setting `x` to `5` and then to `0` leaves the merged
config with `x = 0` but the mirror `x` stuck at `5` (because `0` is falsy
in `config.x || this.x`), while a fresh widget updated straight to `x = 0`
has the same config yet mirror `x = 0`. -/
theorem updateConfig_mirror_stuck :
    (((mkWidgetConfig emptyPartial).updateConfig (xPartial (JVal.num 5))).updateConfig
        (xPartial (JVal.num 0))).config "x" = some (JVal.num 0) ∧
      ((mkWidgetConfig emptyPartial).updateConfig (xPartial (JVal.num 0))).config
        = (((mkWidgetConfig emptyPartial).updateConfig (xPartial (JVal.num 5))).updateConfig
            (xPartial (JVal.num 0))).config ∧
      (((mkWidgetConfig emptyPartial).updateConfig (xPartial (JVal.num 5))).updateConfig
          (xPartial (JVal.num 0))).x = JVal.num 5 ∧
      ((mkWidgetConfig emptyPartial).updateConfig (xPartial (JVal.num 0))).x
        = JVal.num 0 := by
  refine ⟨rfl, ?_, rfl, rfl⟩
  funext k
  by_cases hk : k = "x" <;>
    simp [WConfigState.updateConfig, mergeConfig, mkWidgetConfig, xPartial,
      emptyPartial, hk]

/-- C6 (amended): `updateConfig` spread-merges the partial into the
existing config — fields absent from the partial are retained, present
fields override — never replacing the config wholesale, and then invokes
the subtype hook; but each numeric/geometry mirror field is re-derived as
`mergedConfig.field || previousMirror` (JavaScript truthiness), keeping the
previous mirror whenever the merged value is falsy, and `enabled` is
re-derived from the merged config whenever it is present (`undefined`
keeps the previous value). -/
theorem updateConfig_partial_merge (w : WConfigState) (p : ConfigRec) :
    ((∀ k, p k = none → (w.updateConfig p).config k = w.config k) ∧
      (∀ k v, p k = some v → (w.updateConfig p).config k = some v)) ∧
    ((w.updateConfig p).x = jsOr (mergeConfig w.config p "x") w.x ∧
      (w.updateConfig p).y = jsOr (mergeConfig w.config p "y") w.y ∧
      (w.updateConfig p).width = jsOr (mergeConfig w.config p "width") w.width ∧
      (w.updateConfig p).height = jsOr (mergeConfig w.config p "height") w.height ∧
      (w.updateConfig p).updateInterval
        = jsOr (mergeConfig w.config p "updateInterval") w.updateInterval) ∧
    ((∀ v, mergeConfig w.config p "enabled" = some v →
        (w.updateConfig p).enabled = v) ∧
      (mergeConfig w.config p "enabled" = none →
        (w.updateConfig p).enabled = w.enabled)) ∧
    ((∀ v old, truthy v = false → jsOr (some v) old = old) ∧
      (∀ v old, truthy v = true → jsOr (some v) old = v) ∧
      (∀ old, jsOr none old = old)) ∧
    (w.updateConfig p).hookCalls = w.hookCalls + 1 := by
  refine ⟨⟨?_, ?_⟩, ⟨rfl, rfl, rfl, rfl, rfl⟩, ⟨?_, ?_⟩, ⟨?_, ?_, fun _ => rfl⟩, rfl⟩
  · intro k hk
    show mergeConfig w.config p k = w.config k
    unfold mergeConfig
    rw [hk]
  · intro k v hk
    show mergeConfig w.config p k = some v
    unfold mergeConfig
    rw [hk]
  · intro v hv
    show (match mergeConfig w.config p "enabled" with
      | some v => v
      | none => w.enabled) = v
    rw [hv]
  · intro hv
    show (match mergeConfig w.config p "enabled" with
      | some v => v
      | none => w.enabled) = w.enabled
    rw [hv]
  · intro v old hv
    simp [jsOr, hv]
  · intro v old hv
    simp [jsOr, hv]

/-- Witness for `updateConfig_partial_merge`: updating only `x` leaves the
config's `y` entry unchanged. -/
theorem updateConfig_partial_merge_witness :
    ((mkWidgetConfig emptyPartial).updateConfig (xPartial (JVal.num 0))).config "y"
        = (mkWidgetConfig emptyPartial).config "y" ∧
      ((mkWidgetConfig emptyPartial).updateConfig (xPartial (JVal.num 0))).config "x"
        = some (JVal.num 0) := by
  have h := updateConfig_partial_merge (mkWidgetConfig emptyPartial)
    (xPartial (JVal.num 0))
  exact ⟨h.1.1 "y" rfl, h.1.2 "x" (JVal.num 0) rfl⟩

/-- Helper: parsing inverts the digit map on values below 16. -/
theorem hexDigitVal_hexDigitChar : ∀ d : Nat, d < 16 → hexDigitVal (hexDigitChar d) = d := by
  decide

/-- Helper: folding the parser over the digits of `n` (most significant
first) recovers `n` on top of the shifted accumulator. -/
theorem parseHex_toHexRev (n : Nat) :
    ∀ a : Nat,
      List.foldl (fun a c => a * 16 + hexDigitVal c) a (toHexRev n).reverse
        = a * 16 ^ (toHexRev n).length + n := by
  induction n using Nat.strong_induction_on with
  | _ n ih =>
    intro a
    by_cases h : n = 0
    · subst h
      rw [toHexRev]
      simp
    · rw [toHexRev, dif_neg h, List.reverse_cons, List.foldl_append]
      rw [ih (n / 16) (Nat.div_lt_self (Nat.pos_of_ne_zero h) (by decide)) a]
      simp only [List.foldl_cons, List.foldl_nil, List.length_cons]
      rw [hexDigitVal_hexDigitChar (n % 16) (Nat.mod_lt n (by decide))]
      rw [pow_succ]
      have hdm : n / 16 * 16 + n % 16 = n := by omega
      ring_nf
      ring_nf at hdm
      omega

/-- Helper: parsing inverts JavaScript `toString(16)`. -/
theorem parseHex_jsHexString (n : Nat) : parseHexNum (jsHexString n) = n := by
  by_cases h : n = 0
  · subst h
    rfl
  · unfold jsHexString parseHexNum
    rw [if_neg h, parseHex_toHexRev n 0]
    simp

/-- Helper: leading zero padding does not change the parsed value. -/
theorem parseHex_pad (k : Nat) (l : List Char) :
    parseHexNum (List.replicate k '0' ++ l) = parseHexNum l := by
  unfold parseHexNum
  rw [List.foldl_append]
  suffices hz : List.foldl (fun a c => a * 16 + hexDigitVal c) 0
      (List.replicate k '0') = 0 by rw [hz]
  induction k with
  | zero => rfl
  | succ k ih =>
    rw [List.replicate_succ, List.foldl_cons]
    exact ih

/-- Helper: `toString(16)` of a value below `16^k` has at most `k`
digits. -/
theorem toHexRev_length_le (k : Nat) : ∀ n, n < 16 ^ k → (toHexRev n).length ≤ k := by
  induction k with
  | zero =>
    intro n hn
    have h0 : n = 0 := by simpa using hn
    subst h0
    rw [toHexRev]
    simp
  | succ k ih =>
    intro n hn
    by_cases h : n = 0
    · subst h
      rw [toHexRev]
      simp
    · rw [toHexRev, dif_neg h]
      simp only [List.length_cons]
      have hdiv : n / 16 < 16 ^ k := by
        rw [Nat.div_lt_iff_lt_mul (by decide)]
        calc n < 16 ^ (k + 1) := hn
        _ = 16 ^ k * 16 := by rw [pow_succ]
      have := ih (n / 16) hdiv
      omega

/-- Helper: the packed 24-bit pixel value is the byte composition. -/
theorem pixelVal_eq (c : Color) (hr : c.r ≤ 255) (hg : c.g ≤ 255) (hb : c.b ≤ 255) :
    pixelVal c = c.r * 65536 + c.g * 256 + c.b := by
  unfold pixelVal
  rw [Nat.shiftLeft_eq, Nat.shiftLeft_eq]
  have h1 : c.g * 2 ^ 8 < 2 ^ 16 := by norm_num; omega
  have e1 : c.r * 2 ^ 16 ||| c.g * 2 ^ 8 = 2 ^ 16 * c.r + c.g * 2 ^ 8 := by
    rw [Nat.mul_comm c.r (2 ^ 16)]
    exact (Nat.mul_add_lt_is_or h1 c.r).symm
  rw [e1]
  have e2 : 2 ^ 16 * c.r + c.g * 2 ^ 8 = 2 ^ 8 * (2 ^ 8 * c.r + c.g) := by ring
  rw [e2]
  have h2 : c.b < 2 ^ 8 := by norm_num; omega
  rw [← Nat.mul_add_lt_is_or h2 (2 ^ 8 * c.r + c.g)]
  ring

/-- Helper: the packed pixel value fits in 6 hex digits when the components
are bytes. -/
theorem pixelVal_lt (c : Color) (hr : c.r ≤ 255) (hg : c.g ≤ 255) (hb : c.b ≤ 255) :
    pixelVal c < 16 ^ 6 := by
  rw [pixelVal_eq c hr hg hb]
  norm_num
  omega

/-- Helper: one encoded pixel is exactly 6 characters when the components
are bytes. -/
theorem encodePixel_length (c : Color) (hr : c.r ≤ 255) (hg : c.g ≤ 255)
    (hb : c.b ≤ 255) : (encodePixel c).length = 6 := by
  unfold encodePixel padStart6
  rw [List.length_append, List.length_replicate]
  have hlen : (jsHexString (pixelVal c)).length ≤ 6 := by
    unfold jsHexString
    by_cases h : pixelVal c = 0
    · rw [if_pos h]
      simp
    · rw [if_neg h, List.length_reverse]
      exact toHexRev_length_le 6 _ (pixelVal_lt c hr hg hb)
  omega

/-- Helper: decoding one encoded pixel recovers the pixel when the
components are bytes. -/
theorem decodePixelChars_encodePixel (c : Color) (hr : c.r ≤ 255)
    (hg : c.g ≤ 255) (hb : c.b ≤ 255) :
    decodePixelChars (encodePixel c) = c := by
  have hv : parseHexNum (encodePixel c) = pixelVal c := by
    unfold encodePixel padStart6
    rw [parseHex_pad, parseHex_jsHexString]
  obtain ⟨r, g, b⟩ := c
  unfold decodePixelChars
  rw [hv, pixelVal_eq ⟨r, g, b⟩ hr hg hb]
  simp only at hr hg hb ⊢
  rw [Color.mk.injEq]
  refine ⟨by omega, by omega, by omega⟩

/-- Helper: the pixel splitter peels one well-formed encoded pixel off the
stream. -/
theorem decodePixels_cons (c : Color) (rest : List Char) (hr : c.r ≤ 255)
    (hg : c.g ≤ 255) (hb : c.b ≤ 255) :
    decodePixels (encodePixel c ++ rest) = c :: decodePixels rest := by
  have hlen := encodePixel_length c hr hg hb
  have hne : encodePixel c ++ rest ≠ [] := by
    intro h'
    rw [List.append_eq_nil] at h'
    rw [h'.1] at hlen
    exact absurd hlen (by decide)
  rw [decodePixels, dif_neg hne]
  congr 1
  · rw [List.take_left' hlen]
    exact decodePixelChars_encodePixel c hr hg hb
  · rw [List.drop_left' hlen]

/-- Helper: the pixel splitter decodes a whole encoded row followed by any
remainder. -/
theorem decodePixels_row (rest : List Char) :
    ∀ row : List Color,
      (∀ c ∈ row, c.r ≤ 255 ∧ c.g ≤ 255 ∧ c.b ≤ 255) →
      decodePixels ((row.map encodePixel).flatten ++ rest)
        = row ++ decodePixels rest := by
  intro row
  induction row with
  | nil =>
    intro _
    simp
  | cons c t ih =>
    intro hb
    obtain ⟨h1, h2, h3⟩ := hb c (List.mem_cons_self c t)
    rw [List.map_cons, List.flatten_cons, List.append_assoc]
    rw [decodePixels_cons c _ h1 h2 h3]
    rw [ih (fun q hq => hb q (List.mem_cons_of_mem c hq))]
    rfl

/-- Helper: the pixel splitter inverts `bufferToPicData` up to
flattening. -/
theorem decodePixels_picData :
    ∀ rows : List (List Color),
      (∀ row ∈ rows, ∀ c ∈ row, c.r ≤ 255 ∧ c.g ≤ 255 ∧ c.b ≤ 255) →
      decodePixels (bufferToPicData rows) = rows.flatten := by
  intro rows
  induction rows with
  | nil =>
    intro _
    rw [bufferToPicData]
    simp [decodePixels]
  | cons r t ih =>
    intro hb
    unfold bufferToPicData
    rw [List.map_cons, List.flatten_cons]
    rw [decodePixels_row _ r (hb r (List.mem_cons_self r t))]
    rw [List.flatten_cons]
    congr 1
    exact ih (fun row hrow => hb row (List.mem_cons_of_mem r hrow))

/-- Helper: chunking inverts flattening for rows of uniform positive
length. -/
theorem chunkRows_flatten (s : Nat) (hs : 0 < s) :
    ∀ rows : List (List Color),
      (∀ row ∈ rows, row.length = s) →
      chunkRows s rows.flatten = rows := by
  intro rows
  induction rows with
  | nil =>
    intro _
    simp [chunkRows]
  | cons r t ih =>
    intro hlen
    have hr := hlen r (List.mem_cons_self r t)
    have hrne : r ++ t.flatten ≠ [] := by
      intro h'
      rw [List.append_eq_nil] at h'
      rw [h'.1] at hr
      simp at hr
      omega
    rw [List.flatten_cons, chunkRows, dif_neg hs.ne', dif_neg hrne]
    congr 1
    · exact List.take_left' hr
    · rw [List.drop_left' hr]
      exact ih (fun q hq => hlen q (List.mem_cons_of_mem r hq))

/-- Helper: an encoded row of `n` byte-component pixels is `n * 6`
characters. -/
theorem rowData_length :
    ∀ row : List Color,
      (∀ c ∈ row, c.r ≤ 255 ∧ c.g ≤ 255 ∧ c.b ≤ 255) →
      ((row.map encodePixel).flatten).length = row.length * 6 := by
  intro row
  induction row with
  | nil =>
    intro _
    rfl
  | cons c t ih =>
    intro hb
    obtain ⟨h1, h2, h3⟩ := hb c (List.mem_cons_self c t)
    rw [List.map_cons, List.flatten_cons, List.length_append,
      encodePixel_length c h1 h2 h3,
      ih (fun q hq => hb q (List.mem_cons_of_mem c hq)),
      List.length_cons]
    ring

/-- Helper: the full wire string for uniform `s`-pixel rows has
`rows.length * (s * 6)` characters. -/
theorem picData_length (s : Nat) :
    ∀ rows : List (List Color),
      (∀ row ∈ rows, row.length = s) →
      (∀ row ∈ rows, ∀ c ∈ row, c.r ≤ 255 ∧ c.g ≤ 255 ∧ c.b ≤ 255) →
      (bufferToPicData rows).length = rows.length * (s * 6) := by
  intro rows
  induction rows with
  | nil =>
    intro _ _
    simp [bufferToPicData]
  | cons r t ih =>
    intro hlen hb
    unfold bufferToPicData
    rw [List.map_cons, List.flatten_cons, List.length_append]
    have hrow := rowData_length r (hb r (List.mem_cons_self r t))
    rw [hrow, hlen r (List.mem_cons_self r t)]
    have ht := ih (fun q hq => hlen q (List.mem_cons_of_mem r hq))
      (fun q hq => hb q (List.mem_cons_of_mem r hq))
    unfold bufferToPicData at ht
    rw [ht, List.length_cons]
    ring

/-- C5: for an `s × s` buffer whose RGB components all lie in `[0, 255]`,
`bufferToPicData` produces exactly `s * s * 6` hex characters — row-major,
each pixel as 6 hex digits, red-green-blue, most significant first, no
separators — and the documented decode applied to that string reproduces
the original buffer contents. -/
theorem bufferToPicData_roundtrip (s : Nat) (rows : List (List Color))
    (hs : 0 < s) (hrows : rows.length = s)
    (hlen : ∀ row ∈ rows, row.length = s)
    (hbound : ∀ row ∈ rows, ∀ c ∈ row, c.r ≤ 255 ∧ c.g ≤ 255 ∧ c.b ≤ 255) :
    (bufferToPicData rows).length = s * s * 6 ∧
      documentedDecode s (bufferToPicData rows) = rows := by
  constructor
  · rw [picData_length s rows hlen hbound, hrows]
    ring
  · unfold documentedDecode
    rw [decodePixels_picData rows hbound]
    exact chunkRows_flatten s hs rows hlen

/-- Witness for `bufferToPicData_roundtrip` on a 1×1 buffer holding the
colour `(255, 0, 16)` (wire string `ff0010`). -/
theorem bufferToPicData_roundtrip_witness :
    (bufferToPicData [[Color.mk 255 0 16]]).length = 1 * 1 * 6 ∧
      documentedDecode 1 (bufferToPicData [[Color.mk 255 0 16]])
        = [[Color.mk 255 0 16]] :=
  bufferToPicData_roundtrip 1 [[Color.mk 255 0 16]] (by decide) (by decide)
    (by decide) (by decide)
